import Mathlib

/-!
Verification of the Maistra istio-operator manifest-reconciliation core.

This file gives a shallow embedding, in Lean 4, of the parts of the
operator that the specification's claims concern:

* `processObject` / `ProcessManifests` from
  `pkg/controller/common/manifestprocessing.go`;
* `createCRD` / `processCRDFile` / `InstallCRDs` from
  `pkg/bootstrap/crds.go`;
* the network-policy strategy `reconcileNamespaceInMesh` from
  `pkg/controller/servicemesh/memberroll/ovs_networkpolicy.go`;
* `ControlPlaneReconciler.Delete` from the control-plane deletion
  orchestrator;
* the namespace reconciler's `reconcileNamespaceInMesh` (modelled from
  the spec, as the file itself is not part of the provided sources).

The Kubernetes API client, the patch factory, and the preprocess /
postprocess hooks are external collaborators of this code; they are
embedded as behaviour parameters (records of response functions), and
each embedded operation additionally returns the list of client
operations it issued, so that theorems can speak about which calls were
made and in what order.  YAML parsing and Unstructured decoding are
vendored libraries; a manifest document is therefore embedded as the
outcome of decoding it (a decode failure, or the decoded object).
-/

/-- Kinds of errors returned by the Kubernetes API client, as
distinguished by the `k8s.io/apimachinery` helper predicates the code
uses (`errors.IsInvalid`, `errors.IsNotFound`, `errors.IsGone`, and the
`hacks.IsTypeObjectProblemInCRDSchemas` message test). -/
inductive ApiErr where
  | invalid (msg : String)
  | notFound
  | gone
  | alreadyExists
  | typeObjectProblem
  | other (msg : String)
  deriving DecidableEq, Repr

/-- `errors.IsInvalid` applied to a possibly-nil error. -/
def isInvalidErr : Option ApiErr → Bool
  | some (ApiErr.invalid _) => true
  | _ => false

/-- Deletion propagation policy (`metav1.DeletionPropagation`). -/
inductive Propagation where
  | foreground
  | background
  | orphan
  deriving DecidableEq, Repr

/-- A decoded Kubernetes object (`unstructured.Unstructured`) at the
granularity the claims need: kind, identity, labels and the
resource-version field.  The rest of the payload is opaque. -/
structure KObj where
  kind : String
  name : String
  ns : String
  labels : List (String × String)
  resourceVersion : String
  payload : String
  deriving DecidableEq, Repr

/-- Look up a label on an association list (leftmost binding wins,
mirroring map lookup). -/
def lookupLabel (labels : List (String × String)) (key : String) : Option String :=
  (labels.find? (fun kv => kv.1 == key)).map (·.2)

/-- `common.SetLabel`: set one label, replacing an existing binding. -/
def setLabelList (labels : List (String × String)) (key value : String) :
    List (String × String) :=
  if (labels.find? (fun kv => kv.1 == key)).isSome then
    labels.map (fun kv => if kv.1 == key then (key, value) else kv)
  else
    labels ++ [(key, value)]

/-- `common.SetLabels`: merge a batch of labels into the object. -/
def setLabels (labels : List (String × String)) (newLabels : List (String × String)) :
    List (String × String) :=
  newLabels.foldl (fun acc kv => setLabelList acc kv.1 kv.2) labels

/- Label and annotation key constants from `pkg/controller/common`.
The constants file is not itself among the provided sources; the exact
key strings are irrelevant to every claim (only their identity as keys
matters), so representative values are used. -/

def KubernetesAppNameKey : String := "app.kubernetes.io/name"
def KubernetesAppInstanceKey : String := "app.kubernetes.io/instance"
def KubernetesAppVersionKey : String := "app.kubernetes.io/version"
def KubernetesAppComponentKey : String := "app.kubernetes.io/component"
def KubernetesAppPartOfKey : String := "app.kubernetes.io/part-of"
def KubernetesAppManagedByKey : String := "app.kubernetes.io/managed-by"
def OwnerKey : String := "maistra.io/owner"
def MemberOfKey : String := "maistra.io/member-of"
def InternalKey : String := "maistra.io/internal"

/-- The identity fields of a `ManifestProcessor` (its `appInstance`,
`appVersion` and `owner` strings). -/
structure ProcParams where
  appInstance : String
  appVersion : String
  owner : String
  deriving DecidableEq, Repr

/-- `ManifestProcessor.addMetadata`: stamp the standard app labels and
the legacy owner label onto the object. -/
def addMetadata (p : ProcParams) (component : String) (obj : KObj) : KObj :=
  let stamped :=
    setLabels obj.labels
      [(KubernetesAppNameKey, component),
       (KubernetesAppInstanceKey, p.appInstance),
       (KubernetesAppVersionKey, p.appVersion),
       (KubernetesAppComponentKey, component),
       (KubernetesAppPartOfKey, "istio"),
       (KubernetesAppManagedByKey, "maistra-istio-operator"),
       (OwnerKey, p.owner)]
  { obj with labels := stamped }

/-- Result of `p.Client.Get` for the object's resource key. -/
inductive GetOutcome where
  | found (live : KObj)
  | missing
  | failed (e : ApiErr)
  deriving DecidableEq, Repr

/-- Result of `p.PatchFactory.CreatePatch(receiver, obj)`: an error, a
nil patch (no changes needed), or a non-nil patch. -/
inductive PatchOutcome where
  | computeError (e : ApiErr)
  | noPatch
  | somePatch
  deriving DecidableEq, Repr

/-- Behaviour of the external collaborators during one `processObject`
call: the hook results and the client's response to each request the
code can make. -/
structure ObjBehavior where
  preprocessResult : Option String
  getOutcome : GetOutcome
  createResult : Option ApiErr
  postprocessResult : Option String
  patchCompute : PatchOutcome
  patchApplyResult : Option ApiErr
  deleteResult : Option ApiErr
  recreateResult : Option ApiErr
  deriving DecidableEq, Repr

/-- Errors that `processObject` / `ProcessManifests` can return. -/
inductive PErr where
  | hook (msg : String)
  | api (e : ApiErr)
  | decode (msg : String)
  deriving DecidableEq, Repr

/-- A client operation issued during object processing. -/
inductive Op where
  | getOp
  | createOp (o : KObj)
  | patchApplyOp
  | deleteOp (prop : Propagation)
  deriving DecidableEq, Repr

/-- `ManifestProcessor.processObject` (the non-`List`-kind path;
decoded manifest documents are individual objects).  Returns the list
of client operations issued, in order, and the error value returned.
Faithful points of the source (`manifestprocessing.go`):
* a preprocess-hook error aborts processing of this object;
* a `Get` error that is not `NotFound` is returned as-is;
* on `NotFound`, the object is created; a postprocess-hook error after
  a successful create is only logged;
* on a found object, a nil patch means no apply call; a patch-compute
  error is returned;
* if `patch.Apply` fails with `IsInvalid`, the live object is deleted
  with *background* propagation; on successful delete the resource
  version is cleared and the object re-created; `err` is cleared only
  when the re-create succeeds, so a failed delete or re-create leaves
  the original apply error as the returned error. -/
def processObject (p : ProcParams) (b : ObjBehavior) (obj0 : KObj)
    (component : String) : List Op × Option PErr :=
  let obj := addMetadata p component obj0
  match b.preprocessResult with
  | some m => ([], some (PErr.hook m))
  | none =>
    match b.getOutcome with
    | GetOutcome.failed e => ([Op.getOp], some (PErr.api e))
    | GetOutcome.missing =>
      match b.createResult with
      | none => ([Op.getOp, Op.createOp obj], none)
      | some e => ([Op.getOp, Op.createOp obj], some (PErr.api e))
    | GetOutcome.found _live =>
      match b.patchCompute with
      | PatchOutcome.computeError e => ([Op.getOp], some (PErr.api e))
      | PatchOutcome.noPatch => ([Op.getOp], none)
      | PatchOutcome.somePatch =>
        match b.patchApplyResult with
        | none => ([Op.getOp, Op.patchApplyOp], none)
        | some ae =>
          if isInvalidErr (some ae) then
            match b.deleteResult with
            | some _de =>
              ([Op.getOp, Op.patchApplyOp, Op.deleteOp Propagation.background],
               some (PErr.api ae))
            | none =>
              let objCleared := { obj with resourceVersion := "" }
              match b.recreateResult with
              | none =>
                ([Op.getOp, Op.patchApplyOp, Op.deleteOp Propagation.background,
                  Op.createOp objCleared], none)
              | some _ce =>
                ([Op.getOp, Op.patchApplyOp, Op.deleteOp Propagation.background,
                  Op.createOp objCleared], some (PErr.api ae))
          else
            ([Op.getOp, Op.patchApplyOp], some (PErr.api ae))

/-- One document of a manifest blob, as the outcome of the two decode
steps `yaml.YAMLToJSON` and `unstructured.UnstructuredJSONScheme.Decode`
(both vendored libraries, embedded by their result). -/
inductive ManifestDoc where
  | yamlError (msg : String)
  | decodeError (msg : String)
  | object (o : KObj)
  deriving DecidableEq, Repr

/-- A named manifest blob (`manifest.Manifest`), its content already
split into documents (`releaseutil.SplitManifests`). -/
structure Manifest where
  name : String
  docs : List ManifestDoc
  deriving DecidableEq, Repr

/-- `strings.HasSuffix`, on the underlying character lists (so that
concrete instances reduce by evaluation). -/
def hasSuffixStr (s suffix : String) : Bool :=
  suffix.data.isSuffixOf s.data

/-- The per-document loop body of `ProcessManifests`: a YAML-conversion
or decode failure is recorded and processing continues; a decoded
object is handed to `processObject`, whose error (if any) is recorded.
Returns the operations issued and the errors collected, in order. -/
def processDocs (p : ProcParams) (b : KObj → ObjBehavior) (component : String) :
    List ManifestDoc → List Op × List PErr
  | [] => ([], [])
  | d :: rest =>
    let head : List Op × List PErr :=
      match d with
      | ManifestDoc.yamlError m => ([], [PErr.decode m])
      | ManifestDoc.decodeError m => ([], [PErr.decode m])
      | ManifestDoc.object o =>
        let r := processObject p (b o) o component
        (r.1, match r.2 with | some e => [e] | none => [])
    let tail := processDocs p b component rest
    (head.1 ++ tail.1, head.2 ++ tail.2)

/-- `ManifestProcessor.ProcessManifests`: skip manifests whose name
does not end in ".yaml"; process every document of every remaining
manifest, collecting all per-document errors into one aggregate
(`utilerrors.NewAggregate`). -/
def ProcessManifests (p : ProcParams) (b : KObj → ObjBehavior)
    (manifests : List Manifest) (component : String) : List Op × List PErr :=
  manifests.foldl
    (fun acc man =>
      if hasSuffixStr man.name ".yaml" then
        let r := processDocs p b component man.docs
        (acc.1 ++ r.1, acc.2 ++ r.2)
      else acc)
    ([], [])

/-! ## CRD installer (`pkg/bootstrap/crds.go`) -/

/-- A parsed semantic version, at the dotted-numeric-core granularity
the `maistra-version` labels use (`github.com/Masterminds/semver`,
prerelease and build metadata unused by this repository's labels). -/
structure SemVer where
  major : Nat
  minor : Nat
  patch : Nat
  deriving DecidableEq, Repr

/-- Strict semantic-version ordering (`Version.LessThan`). -/
def semverLt (a b : SemVer) : Bool :=
  if a.major ≠ b.major then a.major < b.major
  else if a.minor ≠ b.minor then a.minor < b.minor
  else a.patch < b.patch

/-- Split a character list on the dot separator. -/
def splitDots : List Char → List (List Char)
  | [] => [[]]
  | c :: rest =>
    let r := splitDots rest
    if c = '.' then [] :: r
    else
      match r with
      | [] => [[c]]
      | g :: gs => (c :: g) :: gs

/-- A non-empty all-digit character group read as a number. -/
def digitsToNat? (cs : List Char) : Option Nat :=
  if cs.isEmpty then none
  else if cs.all Char.isDigit then
    some (cs.foldl (fun n c => 10 * n + (c.toNat - ('0').toNat)) 0)
  else none

/-- `semver.NewVersion` on the label strings this repository uses:
1 to 3 dot-separated numeric segments parse; anything else (including
the empty string of a missing label) is an error. -/
def parseSemVer (s : String) : Option SemVer :=
  match (splitDots s.data).map digitsToNat? with
  | [some a] => some ⟨a, 0, 0⟩
  | [some a, some b] => some ⟨a, b, 0⟩
  | [some a, some b, some c] => some ⟨a, b, c⟩
  | _ => none

/-- A CustomResourceDefinition at the granularity `createCRD` needs:
its name, its labels, and an opaque schema payload with a marker for
whether the `type: object` fields have been stripped from it
(`hacks.RemoveTypeObjectFieldsFromCRDSchema`). -/
structure CRD where
  name : String
  labels : List (String × String)
  schema : String
  typeObjectStripped : Bool
  deriving DecidableEq, Repr

/-- `getMaistraVersion`: parse the `maistra-version` label (a missing
label yields the empty string, which does not parse). -/
def getMaistraVersion (crd : CRD) : Option SemVer :=
  parseSemVer ((lookupLabel crd.labels "maistra-version").getD "")

/-- Modelled from the spec: `common.GetPatchedObject` (the patch
engine, `pkg/controller/common`) is not among the provided sources;
per spec §4.2 a nil patch means no changes are needed and otherwise
the patch carries the desired state.  Modelled as: nil exactly when
the live and desired objects are already equal, and otherwise the
desired object. -/
def getPatchedCrd (existingCrd crd : CRD) : Option CRD :=
  if existingCrd == crd then none else some crd

/-- `hacks.RemoveTypeObjectFieldsFromCRDSchema` on the opaque schema:
marks the schema as stripped.  The function fails when the CRD has no
validation schema; that is a behaviour input below. -/
def stripTypeObject (crd : CRD) : CRD :=
  { crd with typeObjectStripped := true }

/-- Errors returned by the CRD-installation path. -/
inductive CrdErr where
  | decode (msg : String)
  | api (e : ApiErr)
  | noVersion (name : String)
  | noSchema (name : String)
  deriving DecidableEq, Repr

/-- A cluster write issued during CRD installation. -/
inductive CrdAction where
  | getAct (name : String)
  | createAct (c : CRD)
  | updateAct (c : CRD)
  | ensureRoleAct
  deriving DecidableEq, Repr

/-- Client behaviour for CRD installation, per CRD name: the outcomes
of the first and the retried create/update, and whether the
`type: object` strip finds a schema to strip. -/
structure CrdBehavior where
  createOutcome : String → Option ApiErr
  retryCreateOutcome : String → Option ApiErr
  updateOutcome : String → Option ApiErr
  retryUpdateOutcome : String → Option ApiErr
  stripFindsSchema : String → Bool

/-- Replace the CRD of the same name in the store. -/
def updateStore (store : List CRD) (c : CRD) : List CRD :=
  store.map (fun x => if x.name == c.name then c else x)

/-- `createCRD`: fetch the existing CRD of the same name.  If present,
compare `maistra-version` labels — an unparseable *new* version is an
error; an unparseable *existing* version is treated as older than any
version; only a strictly newer incoming version (or unparseable
existing label) leads to an update, and only when the computed patch is
non-nil.  If absent, create.  Both the update and the create are
retried exactly once, after stripping `type: object` fields, when the
API server rejects them with the schema quirk
(`hacks.IsTypeObjectProblemInCRDSchemas`).  Returns the new store, the
actions issued, and the error returned. -/
def createCRD (b : CrdBehavior) (store : List CRD) (crd : CRD) :
    List CRD × List CrdAction × Option CrdErr :=
  match store.find? (fun c => c.name == crd.name) with
  | some existingCrd =>
    match getMaistraVersion crd with
    | none => (store, [CrdAction.getAct crd.name], some (CrdErr.noVersion crd.name))
    | some newVersion =>
      let doUpdate : Bool :=
        match getMaistraVersion existingCrd with
        | none => true
        | some existingVersion => semverLt existingVersion newVersion
      if doUpdate then
        match getPatchedCrd existingCrd crd with
        | none => (store, [CrdAction.getAct crd.name], none)
        | some patchedCrd =>
          match b.updateOutcome crd.name with
          | none =>
            (updateStore store patchedCrd,
             [CrdAction.getAct crd.name, CrdAction.updateAct patchedCrd], none)
          | some e =>
            if e == ApiErr.typeObjectProblem then
              if b.stripFindsSchema crd.name then
                let stripped := stripTypeObject patchedCrd
                match b.retryUpdateOutcome crd.name with
                | none =>
                  (updateStore store stripped,
                   [CrdAction.getAct crd.name, CrdAction.updateAct patchedCrd,
                    CrdAction.updateAct stripped], none)
                | some e2 =>
                  (store,
                   [CrdAction.getAct crd.name, CrdAction.updateAct patchedCrd,
                    CrdAction.updateAct stripped], some (CrdErr.api e2))
              else
                (store, [CrdAction.getAct crd.name, CrdAction.updateAct patchedCrd],
                 some (CrdErr.noSchema crd.name))
            else
              (store, [CrdAction.getAct crd.name, CrdAction.updateAct patchedCrd],
               some (CrdErr.api e))
      else
        (store, [CrdAction.getAct crd.name], none)
  | none =>
    match b.createOutcome crd.name with
    | none => (store ++ [crd], [CrdAction.getAct crd.name, CrdAction.createAct crd], none)
    | some e =>
      if e == ApiErr.typeObjectProblem then
        if b.stripFindsSchema crd.name then
          let stripped := stripTypeObject crd
          match b.retryCreateOutcome crd.name with
          | none =>
            (store ++ [stripped],
             [CrdAction.getAct crd.name, CrdAction.createAct crd,
              CrdAction.createAct stripped], none)
          | some e2 =>
            (store,
             [CrdAction.getAct crd.name, CrdAction.createAct crd,
              CrdAction.createAct stripped], some (CrdErr.api e2))
        else
          (store, [CrdAction.getAct crd.name, CrdAction.createAct crd],
           some (CrdErr.noSchema crd.name))
      else
        (store, [CrdAction.getAct crd.name, CrdAction.createAct crd],
         some (CrdErr.api e))

/-- One document of a CRD manifest file, as the outcome of
`decodeCRD`: a decode failure, a document that is not a
CustomResourceDefinition (skipped silently), or a CRD. -/
inductive CRDDoc where
  | decodeFail (msg : String)
  | notCRD
  | crdDoc (c : CRD)
  deriving DecidableEq, Repr

/-- `processCRDFile`: process every document of one file, collecting
decode errors and `createCRD` errors into one list (aggregated with
`utilerrors.NewAggregate`); a failing document never stops the
remaining documents of the same file. -/
def processCRDFile (b : CrdBehavior) (store : List CRD) :
    List CRDDoc → List CRD × List CrdAction × List CrdErr
  | [] => (store, [], [])
  | d :: rest =>
    match d with
    | CRDDoc.decodeFail m =>
      let r := processCRDFile b store rest
      (r.1, r.2.1, CrdErr.decode m :: r.2.2)
    | CRDDoc.notCRD => processCRDFile b store rest
    | CRDDoc.crdDoc c =>
      let step := createCRD b store c
      let r := processCRDFile b step.1 rest
      (r.1, step.2.1 ++ r.2.1,
       (match step.2.2 with | some e => [e] | none => []) ++ r.2.2)

/-- The `filepath.Walk` loop of `InstallCRDs` over the files of the
CRD directory: files are visited in order, and the walk callback
returns `processCRDFile`'s aggregate for each file — `filepath.Walk`
stops the walk as soon as the callback returns a non-nil error, and
`InstallCRDs` returns that error.  When every file succeeds,
`installCRDRole` ensures the aggregated ClusterRole exists. -/
def installCRDsWalk (b : CrdBehavior) (store : List CRD) :
    List (List CRDDoc) → List CRD × List CrdAction × Option (List CrdErr)
  | [] => (store, [CrdAction.ensureRoleAct], none)
  | f :: rest =>
    let step := processCRDFile b store f
    match step.2.2 with
    | [] =>
      let r := installCRDsWalk b step.1 rest
      (r.1, step.2.1 ++ r.2.1, r.2.2)
    | e :: es => (step.1, step.2.1, some (e :: es))

/-! ## Network-policy strategy
(`pkg/controller/servicemesh/memberroll/ovs_networkpolicy.go`) -/

/-- A NetworkPolicy of the mesh namespace, as the strategy sees it at
construction time: its name and whether it carries the internal-only
annotation (`common.InternalKey`). -/
structure MeshNetworkPolicy where
  npName : String
  internal : Bool
  deriving DecidableEq, Repr

/-- `newNetworkPolicyStrategy`'s required set: the names of the mesh
namespace's non-internal NetworkPolicy objects. -/
def requiredSet (meshItems : List MeshNetworkPolicy) : Finset String :=
  ((meshItems.filter (fun np => !np.internal)).map (·.npName)).toFinset

/-- Outcome of a `Client.Delete` call for one NetworkPolicy. -/
inductive DeleteOutcome where
  | ok
  | notFoundErr
  | goneErr
  | failedErr (msg : String)
  deriving DecidableEq, Repr

/-- Client behaviour during one `reconcileNamespaceInMesh` of the
network-policy strategy, per policy name. -/
structure NPClient where
  createFails : String → Bool
  deleteOutcome : String → DeleteOutcome

/-- The result of one strategy reconciliation: which policies were
created, which delete calls were issued, which deletes removed an
object, the resulting existing set, and the errors aggregated. -/
structure NPResult where
  created : Finset String
  deleteCalls : Finset String
  post : Finset String
  createErrors : List String
  deleteErrors : Finset String
  deriving DecidableEq

/-- Whether a delete outcome counts as a failure in
`reconcileNamespaceInMesh`: a `NotFound` or `Gone` error is treated
like success (`err != nil && !(errors.IsNotFound(err) ||
errors.IsGone(err))`). -/
def isDeleteFailure : DeleteOutcome → Bool
  | DeleteOutcome.failedErr _ => true
  | _ => false

/-- The create loop of `reconcileNamespaceInMesh`: walk the mesh
NetworkPolicy list; skip names not in the required set; create each
required policy not in the (fixed, pre-loop) existing set, recording
successes in the added set and failures in the error list. -/
def npCreateLoop (cl : NPClient) (required existing : Finset String) :
    List MeshNetworkPolicy → Finset String × List String
  | [] => (∅, [])
  | np :: rest =>
    let r := npCreateLoop cl required existing rest
    if np.npName ∈ required ∧ np.npName ∉ existing then
      if cl.createFails np.npName then (r.1, np.npName :: r.2)
      else (insert np.npName r.1, r.2)
    else r

/-- The network-policy strategy's `reconcileNamespaceInMesh`, after
the initial List call produced the `existing` set of policy names
labelled as members: create missing required policies; union the
successfully added names into the existing set; issue a delete (with
foreground propagation) for every name in `existing ∪ added` minus the
required set, where a `NotFound` or `Gone` delete error is *not*
recorded as an error; return the aggregate of create and delete
errors. -/
def npReconcileNamespaceInMesh (cl : NPClient) (meshItems : List MeshNetworkPolicy)
    (required existing : Finset String) : NPResult :=
  let createStep := npCreateLoop cl required existing meshItems
  let added := createStep.1
  let existingAfter := existing ∪ added
  let obsolete := existingAfter \ required
  let deleteErrs := obsolete.filter
    (fun n => isDeleteFailure (cl.deleteOutcome n) = true)
  let removed := obsolete.filter
    (fun n => isDeleteFailure (cl.deleteOutcome n) = false)
  { created := added,
    deleteCalls := obsolete,
    post := existingAfter \ removed,
    createErrors := createStep.2,
    deleteErrors := deleteErrs }

/-! ## Namespace membership reconciler
(`pkg/controller/servicemesh/memberroll/namespace_reconciler.go`; only
its tests are among the provided sources) -/

/-- The state the namespace reconciler reads and writes: the target
namespace's mesh-membership label and the set of mesh-copied objects
currently present in the namespace. -/
structure NsState where
  memberOf : Option String
  objects : Finset String
  deriving DecidableEq

/-- A mutation performed by the namespace reconciler. -/
inductive NsOp where
  | labelNamespace (mesh : String)
  | createObj (name : String)
  | deleteObj (name : String)
  | invokeNetworkStrategy
  deriving DecidableEq, Repr

/-- Modelled from the spec: `namespaceReconciler.reconcileNamespaceInMesh`
(`pkg/controller/servicemesh/memberroll/namespace_reconciler.go`) is
not among the provided sources — only its tests are.  Spec §4.4:
"fails immediately, without mutation, if the target namespace already
carries a mesh-membership label pointing to a *different* mesh
namespace.  Otherwise: label the namespace as a member; copy every
mesh-scoped template object ... into the namespace if not already
present, stamping a membership label; delete any previously-copied
object in the namespace that is no longer in the required set; invoke
the networking strategy's reconcile method for the namespace."
Returns the mutations performed, the post-state, and the error. -/
def nsReconcileMember (meshNamespace : String) (requiredObjs : Finset String)
    (st : NsState) : List NsOp × NsState × Option String :=
  let toCreate := requiredObjs \ st.objects
  let toDelete := st.objects \ requiredObjs
  ([NsOp.labelNamespace meshNamespace]
     ++ (toCreate.sort (· ≤ ·)).map NsOp.createObj
     ++ (toDelete.sort (· ≤ ·)).map NsOp.deleteObj
     ++ [NsOp.invokeNetworkStrategy],
   { memberOf := some meshNamespace, objects := requiredObjs }, none)

/-- Modelled from the spec (entry point; see `nsReconcileMember` for
the mutation path): dispatch on the namespace's current membership
label. -/
def nsReconcileNamespaceInMesh (meshNamespace : String)
    (requiredObjs : Finset String) (st : NsState) :
    List NsOp × NsState × Option String :=
  match st.memberOf with
  | some existingMesh =>
    if existingMesh ≠ meshNamespace then
      ([], st, some ("namespace " ++ "is already a member of mesh " ++ existingMesh))
    else
      nsReconcileMember meshNamespace requiredObjs st
  | none => nsReconcileMember meshNamespace requiredObjs st

/-! ## Control-plane deletion orchestrator
(`ControlPlaneReconciler.Delete`) -/

/-- A lifecycle event recorded on the ServiceMeshControlPlane. -/
inductive LifecycleEvent where
  | deletingEvent
  | deletedSuccess
  | deletedFailure (msg : String)
  deriving DecidableEq, Repr

/-- An observable step of `ControlPlaneReconciler.Delete`: an event
emission or the prune invocation. -/
inductive DeleteStep where
  | emit (e : LifecycleEvent)
  | pruneAll
  deriving DecidableEq, Repr

/-- `ControlPlaneReconciler.Delete`: emit the "Deleting service mesh"
event, invoke `r.prune(-1)` (prune every component, an external
collaborator embedded by its result), then — in the deferred block that
runs as the function returns — emit exactly one terminal event: success
when the prune error is nil, otherwise a warning carrying the error
message.  The prune error is returned unchanged. -/
def controlPlaneDelete (pruneResult : Option String) :
    List DeleteStep × Option String :=
  let terminal : LifecycleEvent :=
    match pruneResult with
    | none => LifecycleEvent.deletedSuccess
    | some m => LifecycleEvent.deletedFailure
        ("Error occurred during service mesh deletion: " ++ m)
  ([DeleteStep.emit LifecycleEvent.deletingEvent, DeleteStep.pruneAll,
    DeleteStep.emit terminal], pruneResult)

/-! ## Sample inputs used by witnesses and counterexamples -/

/-- Sample processor identity. -/
def sampleParams : ProcParams := ⟨"basic-install", "2.0.1", "istio-system"⟩

/-- Sample desired object. -/
def sampleObj : KObj := ⟨"ConfigMap", "istio-config", "app-ns", [], "42", "desired-data"⟩

/-- Sample live object returned by `Get`. -/
def sampleLive : KObj := ⟨"ConfigMap", "istio-config", "app-ns", [], "41", "live-data"⟩

/-- A named object for manifest batches. -/
def mkObj (n : String) : KObj := ⟨"ConfigMap", n, "app-ns", [], "", ""⟩

/-- Behaviour: patch apply is rejected as Invalid, delete succeeds,
re-create fails. -/
def recreateFailsBehavior : ObjBehavior :=
  ⟨none, GetOutcome.found sampleLive, none, none, PatchOutcome.somePatch,
   some (ApiErr.invalid "spec.selector: field is immutable"), none,
   some (ApiErr.other "recreate quota exceeded")⟩

/-- Behaviour: patch apply is rejected as Invalid, delete succeeds,
re-create succeeds. -/
def recreateOkBehavior : ObjBehavior :=
  ⟨none, GetOutcome.found sampleLive, none, none, PatchOutcome.somePatch,
   some (ApiErr.invalid "spec.selector: field is immutable"), none, none⟩

/-- Behaviour: the object does not exist, its creation succeeds. -/
def createOkBehavior : ObjBehavior :=
  ⟨none, GetOutcome.missing, none, none, PatchOutcome.noPatch, none, none, none⟩

/-- A CRD named `n` labelled with `maistra-version` `ver`. -/
def crdV (n ver : String) : CRD := ⟨n, [("maistra-version", ver)], "openAPIV3Schema", false⟩

/-- CRD-installation client behaviour in which every call succeeds. -/
def crdAllOk : CrdBehavior :=
  ⟨fun _ => none, fun _ => none, fun _ => none, fun _ => none, fun _ => true⟩

/-- Network-policy client behaviour in which every call succeeds. -/
def npAllOk : NPClient := ⟨fun _ => false, fun _ => DeleteOutcome.ok⟩

/-- Network-policy client behaviour in which deleting `gone-np`
reports `NotFound` (the policy was removed concurrently). -/
def npConcurrentDelete : NPClient :=
  ⟨fun _ => false,
   fun n => if n == "gone-np" then DeleteOutcome.notFoundErr else DeleteOutcome.ok⟩

/-- Sample mesh NetworkPolicy list: one member policy, one
internal-only policy. -/
def sampleMeshNPs : List MeshNetworkPolicy := [⟨"istio-mesh", false⟩, ⟨"istio-internal", true⟩]

/-- A CRD file whose single document fails to decode. -/
def badFile : List CRDDoc := [CRDDoc.decodeFail "bad yaml"]

/-- A well-formed CRD carried by the second sample file. -/
def goodCrd : CRD := crdV "istiocontrolplanes.istio.io" "1.0.0"

/-- A CRD file containing one well-formed CRD. -/
def goodFile : List CRDDoc := [CRDDoc.crdDoc goodCrd]

/-! ## Helper lemmas -/

/-- `semverLt` is irreflexive. -/
theorem semverLt_irrefl (v : SemVer) : semverLt v v = false := by
  simp [semverLt]

/-- Splitting a CRD file's document list splits its results: the
store threads through, and the actions and errors concatenate.  In
particular no document aborts the processing of the documents after
it in the same file. -/
theorem processCRDFile_append (b : CrdBehavior) (store : List CRD)
    (ds1 ds2 : List CRDDoc) :
    processCRDFile b store (ds1 ++ ds2) =
      ((processCRDFile b (processCRDFile b store ds1).1 ds2).1,
       (processCRDFile b store ds1).2.1 ++
         (processCRDFile b (processCRDFile b store ds1).1 ds2).2.1,
       (processCRDFile b store ds1).2.2 ++
         (processCRDFile b (processCRDFile b store ds1).1 ds2).2.2) := by
  induction ds1 generalizing store with
  | nil => simp [processCRDFile]
  | cons d rest ih =>
    cases d with
    | decodeFail m => simp [processCRDFile, ih]
    | notCRD => simp [processCRDFile, ih]
    | crdDoc c => simp [processCRDFile, ih]

/-- Splitting a document list splits `processDocs`'s results. -/
theorem processDocs_append (p : ProcParams) (b : KObj → ObjBehavior)
    (component : String) (ds1 ds2 : List ManifestDoc) :
    processDocs p b component (ds1 ++ ds2) =
      ((processDocs p b component ds1).1 ++ (processDocs p b component ds2).1,
       (processDocs p b component ds1).2 ++ (processDocs p b component ds2).2) := by
  induction ds1 with
  | nil => simp [processDocs]
  | cons d rest ih => simp [processDocs, ih]

/-- On a list of successfully processed objects, `processDocs` issues
each object's operations and collects no errors. -/
theorem processDocs_objects_ok (p : ProcParams) (b : KObj → ObjBehavior)
    (component : String) (objs : List KObj)
    (hok : ∀ o ∈ objs, (processObject p (b o) o component).2 = none) :
    processDocs p b component (objs.map ManifestDoc.object) =
      (objs.flatMap (fun o => (processObject p (b o) o component).1), []) := by
  induction objs with
  | nil => simp [processDocs]
  | cons o rest ih =>
    have ho := hok o (by simp)
    have hrest : ∀ o ∈ rest, (processObject p (b o) o component).2 = none :=
      fun o' h' => hok o' (by simp [h'])
    simp [processDocs, ho, ih hrest]

/-- With a client that never fails a create, the create loop of the
network-policy strategy adds exactly the listed names that are
required and not yet existing, and records no errors. -/
theorem npCreateLoop_all_ok (cl : NPClient) (required existing : Finset String)
    (items : List MeshNetworkPolicy)
    (hc : ∀ n, cl.createFails n = false) :
    npCreateLoop cl required existing items =
      ((items.map (·.npName)).toFinset.filter
         (fun n => n ∈ required ∧ n ∉ existing), []) := by
  induction items with
  | nil => simp [npCreateLoop]
  | cons np rest ih =>
    simp only [npCreateLoop, ih, hc]
    by_cases h : np.npName ∈ required ∧ np.npName ∉ existing
    · simp [h, Finset.filter_insert]
    · simp [h, Finset.filter_insert]

/-- Every name in the strategy's required set is the name of one of
the mesh NetworkPolicy list's items. -/
theorem requiredSet_subset_names (items : List MeshNetworkPolicy) :
    requiredSet items ⊆ (items.map (·.npName)).toFinset := by
  intro n hn
  simp only [requiredSet, List.mem_toFinset, List.mem_map, List.mem_filter] at hn
  rcases hn with ⟨np, ⟨hmem, _⟩, hname⟩
  simp only [List.mem_toFinset, List.mem_map]
  exact ⟨np, hmem, hname⟩

/-! ## Claim theorems -/

/-- C8: `ControlPlaneReconciler.Delete` first emits the "deleting"
lifecycle event, then invokes the prune operation, then emits exactly
one terminal lifecycle event — success exactly when prune returned
nil, otherwise a failure event carrying the error — and returns
exactly the prune result. -/
theorem controlPlaneDelete_lifecycle (pruneResult : Option String) :
    (controlPlaneDelete pruneResult).2 = pruneResult ∧
    ∃ t, (controlPlaneDelete pruneResult).1 =
        [DeleteStep.emit LifecycleEvent.deletingEvent, DeleteStep.pruneAll,
         DeleteStep.emit t] ∧
      (t = LifecycleEvent.deletedSuccess ↔ pruneResult = none) ∧
      ∀ m, pruneResult = some m →
        t = LifecycleEvent.deletedFailure
              ("Error occurred during service mesh deletion: " ++ m) := by
  cases pruneResult with
  | none => exact ⟨rfl, LifecycleEvent.deletedSuccess, rfl, by simp, by simp⟩
  | some m =>
    refine ⟨rfl, LifecycleEvent.deletedFailure
      ("Error occurred during service mesh deletion: " ++ m), rfl, by simp, by simp⟩

/-- C6: if the target namespace already carries a mesh-membership
label naming a different mesh namespace, the namespace reconciler's
`reconcileNamespaceInMesh` returns an error and performs no mutation:
no operations are issued and the namespace state is unchanged. -/
theorem nsReconcile_other_mesh_fails_without_mutation
    (meshNamespace other : String) (requiredObjs : Finset String) (st : NsState)
    (hmem : st.memberOf = some other) (hne : other ≠ meshNamespace) :
    (nsReconcileNamespaceInMesh meshNamespace requiredObjs st).1 = [] ∧
    (nsReconcileNamespaceInMesh meshNamespace requiredObjs st).2.1 = st ∧
    (nsReconcileNamespaceInMesh meshNamespace requiredObjs st).2.2.isSome = true := by
  simp [nsReconcileNamespaceInMesh, hmem, hne]

/-- Witness for C6 at a concrete input: a namespace already labelled
as a member of `other-control-plane` cannot be reconciled into
`istio-system`. -/
theorem nsReconcile_other_mesh_fails_without_mutation_witness :
    (NsState.mk (some "other-control-plane") ∅).memberOf = some "other-control-plane" ∧
    "other-control-plane" ≠ "istio-system" ∧
    ((nsReconcileNamespaceInMesh "istio-system" ∅
        (NsState.mk (some "other-control-plane") ∅)).1 = [] ∧
     (nsReconcileNamespaceInMesh "istio-system" ∅
        (NsState.mk (some "other-control-plane") ∅)).2.1 =
       NsState.mk (some "other-control-plane") ∅ ∧
     (nsReconcileNamespaceInMesh "istio-system" ∅
        (NsState.mk (some "other-control-plane") ∅)).2.2.isSome = true) :=
  ⟨rfl, by decide,
   nsReconcile_other_mesh_fails_without_mutation "istio-system" "other-control-plane"
     ∅ (NsState.mk (some "other-control-plane") ∅) rfl (by decide)⟩

/-- C10: in the network-policy strategy's `reconcileNamespaceInMesh`,
a delete whose error is `NotFound` or `Gone` contributes no error to
the returned aggregate. -/
theorem npReconcile_notfound_gone_not_an_error
    (cl : NPClient) (meshItems : List MeshNetworkPolicy)
    (required existing : Finset String) (n : String)
    (h : cl.deleteOutcome n = DeleteOutcome.notFoundErr ∨
         cl.deleteOutcome n = DeleteOutcome.goneErr) :
    n ∉ (npReconcileNamespaceInMesh cl meshItems required existing).deleteErrors := by
  intro hmem
  simp only [npReconcileNamespaceInMesh, Finset.mem_filter] at hmem
  rcases h with h | h <;> rw [h] at hmem <;> simp [isDeleteFailure] at hmem

/-- Witness for C10 at a concrete input: `gone-np` was deleted
concurrently (its delete returns `NotFound`) and is not reported as an
error. -/
theorem npReconcile_notfound_gone_not_an_error_witness :
    (npConcurrentDelete.deleteOutcome "gone-np" = DeleteOutcome.notFoundErr ∨
     npConcurrentDelete.deleteOutcome "gone-np" = DeleteOutcome.goneErr) ∧
    "gone-np" ∉ (npReconcileNamespaceInMesh npConcurrentDelete sampleMeshNPs
        (requiredSet sampleMeshNPs) {"gone-np"}).deleteErrors :=
  ⟨Or.inl rfl,
   npReconcile_notfound_gone_not_an_error npConcurrentDelete sampleMeshNPs
     (requiredSet sampleMeshNPs) {"gone-np"} "gone-np" (Or.inl rfl)⟩

/-- C5: a successful run of the network-policy strategy's
`reconcileNamespaceInMesh` (required set `R`, existing set `E`, all
client calls succeeding) creates exactly `R − E`, issues deletes for
exactly `E − R`, reports no errors, leaves `E ∩ R` untouched, and the
post-state existing set equals `R`. -/
theorem npReconcile_set_difference
    (cl : NPClient) (meshItems : List MeshNetworkPolicy) (existing : Finset String)
    (hc : ∀ n, cl.createFails n = false)
    (hd : ∀ n, cl.deleteOutcome n = DeleteOutcome.ok) :
    (npReconcileNamespaceInMesh cl meshItems (requiredSet meshItems) existing).created
        = requiredSet meshItems \ existing ∧
    (npReconcileNamespaceInMesh cl meshItems (requiredSet meshItems) existing).deleteCalls
        = existing \ requiredSet meshItems ∧
    (npReconcileNamespaceInMesh cl meshItems (requiredSet meshItems) existing).post
        = requiredSet meshItems ∧
    (npReconcileNamespaceInMesh cl meshItems (requiredSet meshItems) existing).createErrors
        = [] ∧
    (npReconcileNamespaceInMesh cl meshItems (requiredSet meshItems) existing).deleteErrors
        = ∅ ∧
    (existing ∩ requiredSet meshItems) ∩
      ((npReconcileNamespaceInMesh cl meshItems (requiredSet meshItems) existing).created ∪
       (npReconcileNamespaceInMesh cl meshItems (requiredSet meshItems) existing).deleteCalls)
        = ∅ := by
  have hloop := npCreateLoop_all_ok cl (requiredSet meshItems) existing meshItems hc
  have hsub := requiredSet_subset_names meshItems
  have hcreated :
      (npCreateLoop cl (requiredSet meshItems) existing meshItems).1 =
        requiredSet meshItems \ existing := by
    rw [hloop]
    ext n
    simp only [Finset.mem_filter, Finset.mem_sdiff, List.mem_toFinset]
    constructor
    · rintro ⟨-, hr, he⟩; exact ⟨hr, he⟩
    · rintro ⟨hr, he⟩
      exact ⟨by simpa using hsub hr, hr, he⟩
  refine ⟨?_, ?_, ?_, ?_, ?_, ?_⟩
  · simpa [npReconcileNamespaceInMesh] using hcreated
  · simp only [npReconcileNamespaceInMesh, hcreated]
    ext n
    simp only [Finset.mem_sdiff, Finset.mem_union]
    tauto
  · simp only [npReconcileNamespaceInMesh, hcreated]
    ext n
    simp only [Finset.mem_sdiff, Finset.mem_union, Finset.mem_filter, hd, isDeleteFailure]
    tauto
  · simp only [npReconcileNamespaceInMesh, hloop]
  · simp only [npReconcileNamespaceInMesh]
    ext n
    simp [hd, isDeleteFailure]
  · simp only [npReconcileNamespaceInMesh, hcreated]
    ext n
    simp only [Finset.mem_inter, Finset.mem_union, Finset.mem_sdiff,
      Finset.not_mem_empty, iff_false]
    tauto

/-- Witness for C5 at a concrete input: required = {istio-mesh}
(the internal policy is excluded), existing = {old-np}. -/
theorem npReconcile_set_difference_witness :
    (∀ n, npAllOk.createFails n = false) ∧
    (∀ n, npAllOk.deleteOutcome n = DeleteOutcome.ok) ∧
    ((npReconcileNamespaceInMesh npAllOk sampleMeshNPs
        (requiredSet sampleMeshNPs) {"old-np"}).created
          = requiredSet sampleMeshNPs \ {"old-np"} ∧
     (npReconcileNamespaceInMesh npAllOk sampleMeshNPs
        (requiredSet sampleMeshNPs) {"old-np"}).deleteCalls
          = {"old-np"} \ requiredSet sampleMeshNPs ∧
     (npReconcileNamespaceInMesh npAllOk sampleMeshNPs
        (requiredSet sampleMeshNPs) {"old-np"}).post
          = requiredSet sampleMeshNPs ∧
     (npReconcileNamespaceInMesh npAllOk sampleMeshNPs
        (requiredSet sampleMeshNPs) {"old-np"}).createErrors = [] ∧
     (npReconcileNamespaceInMesh npAllOk sampleMeshNPs
        (requiredSet sampleMeshNPs) {"old-np"}).deleteErrors = ∅ ∧
     (({"old-np"} : Finset String) ∩ requiredSet sampleMeshNPs) ∩
       ((npReconcileNamespaceInMesh npAllOk sampleMeshNPs
           (requiredSet sampleMeshNPs) {"old-np"}).created ∪
        (npReconcileNamespaceInMesh npAllOk sampleMeshNPs
           (requiredSet sampleMeshNPs) {"old-np"}).deleteCalls) = ∅) :=
  ⟨fun _ => rfl, fun _ => rfl,
   npReconcile_set_difference npAllOk sampleMeshNPs {"old-np"}
     (fun _ => rfl) (fun _ => rfl)⟩

/-- Counterexample to C1 as stated: with the patch apply rejected as
Invalid, the delete succeeding and the re-create failing with a
distinct error, `processObject` returns the *original patch-apply*
error, not the re-create error. -/
theorem processObject_recreate_error_counterexample :
    (processObject sampleParams recreateFailsBehavior sampleObj "galley").2 =
      some (PErr.api (ApiErr.invalid "spec.selector: field is immutable")) ∧
    (processObject sampleParams recreateFailsBehavior sampleObj "galley").2 ≠
      some (PErr.api (ApiErr.other "recreate quota exceeded")) := by
  constructor
  · rfl
  · decide

/-- C1 (amended): when applying a computed patch fails with an Invalid
error and the processor falls back to delete-then-recreate, a failure
of the fallback (whether of the delete or of the re-create) leaves the
*original patch-apply* error as the object's result — the delete and
re-create errors are only logged; if the re-create succeeds, the
original patch error is discarded and the object's result is nil. -/
theorem processObject_invalid_patch_error_priority
    (p : ProcParams) (b : ObjBehavior) (obj : KObj) (component : String)
    (live : KObj) (m : String)
    (hpre : b.preprocessResult = none)
    (hget : b.getOutcome = GetOutcome.found live)
    (hpatch : b.patchCompute = PatchOutcome.somePatch)
    (happly : b.patchApplyResult = some (ApiErr.invalid m)) :
    (b.deleteResult = none → b.recreateResult = none →
       (processObject p b obj component).2 = none) ∧
    (∀ ce, b.deleteResult = none → b.recreateResult = some ce →
       (processObject p b obj component).2 = some (PErr.api (ApiErr.invalid m))) ∧
    (∀ de, b.deleteResult = some de →
       (processObject p b obj component).2 = some (PErr.api (ApiErr.invalid m))) := by
  refine ⟨fun hdel hrec => ?_, fun ce hdel hrec => ?_, fun de hdel => ?_⟩
  · simp [processObject, hpre, hget, hpatch, happly, hdel, hrec, isInvalidErr]
  · simp [processObject, hpre, hget, hpatch, happly, hdel, hrec, isInvalidErr]
  · simp [processObject, hpre, hget, hpatch, happly, hdel, isInvalidErr]

/-- Witness for C1 (amended) at a concrete input: the re-create fails
and the Invalid patch error is the returned result. -/
theorem processObject_invalid_patch_error_priority_witness :
    recreateFailsBehavior.preprocessResult = none ∧
    recreateFailsBehavior.getOutcome = GetOutcome.found sampleLive ∧
    recreateFailsBehavior.patchCompute = PatchOutcome.somePatch ∧
    recreateFailsBehavior.patchApplyResult =
      some (ApiErr.invalid "spec.selector: field is immutable") ∧
    recreateFailsBehavior.deleteResult = none ∧
    recreateFailsBehavior.recreateResult = some (ApiErr.other "recreate quota exceeded") ∧
    (processObject sampleParams recreateFailsBehavior sampleObj "galley").2 =
      some (PErr.api (ApiErr.invalid "spec.selector: field is immutable")) :=
  ⟨rfl, rfl, rfl, rfl, rfl, rfl,
   (processObject_invalid_patch_error_priority sampleParams recreateFailsBehavior
      sampleObj "galley" sampleLive "spec.selector: field is immutable"
      rfl rfl rfl rfl).2.1 (ApiErr.other "recreate quota exceeded") rfl rfl⟩

/-- Counterexample to C3 as stated: in the delete-then-recreate
fallback the live object is deleted with *background* propagation; no
foreground-propagation delete is issued. -/
theorem processObject_recreate_propagation_counterexample :
    (processObject sampleParams recreateOkBehavior sampleObj "galley").1 =
      [Op.getOp, Op.patchApplyOp, Op.deleteOp Propagation.background,
       Op.createOp { addMetadata sampleParams "galley" sampleObj with resourceVersion := "" }] ∧
    Op.deleteOp Propagation.foreground ∉
      (processObject sampleParams recreateOkBehavior sampleObj "galley").1 := by
  constructor
  · rfl
  · decide

/-- C3 (amended): when patch application is rejected as Invalid and
the delete succeeds, the processor deletes the live object with
*background* cascading propagation, clears the desired object's
resource-version field, and creates the object fresh (the create call
carries the labelled object with an empty resource version),
regardless of whether that create succeeds. -/
theorem processObject_invalid_patch_delete_recreate
    (p : ProcParams) (b : ObjBehavior) (obj : KObj) (component : String)
    (live : KObj) (m : String)
    (hpre : b.preprocessResult = none)
    (hget : b.getOutcome = GetOutcome.found live)
    (hpatch : b.patchCompute = PatchOutcome.somePatch)
    (happly : b.patchApplyResult = some (ApiErr.invalid m))
    (hdel : b.deleteResult = none) :
    (processObject p b obj component).1 =
      [Op.getOp, Op.patchApplyOp, Op.deleteOp Propagation.background,
       Op.createOp { addMetadata p component obj with resourceVersion := "" }] ∧
    ∀ o, Op.createOp o ∈ (processObject p b obj component).1 →
      o.resourceVersion = "" := by
  have hops : (processObject p b obj component).1 =
      [Op.getOp, Op.patchApplyOp, Op.deleteOp Propagation.background,
       Op.createOp { addMetadata p component obj with resourceVersion := "" }] := by
    cases hrec : b.recreateResult <;>
      simp [processObject, hpre, hget, hpatch, happly, hdel, hrec, isInvalidErr]
  refine ⟨hops, fun o ho => ?_⟩
  rw [hops] at ho
  simp only [List.mem_cons, List.not_mem_nil, or_false] at ho
  rcases ho with h | h | h | h
  · exact absurd h (by simp)
  · exact absurd h (by simp)
  · exact absurd h (by simp)
  · injection h with h
    rw [h]

/-- Witness for C3 (amended) at a concrete input. -/
theorem processObject_invalid_patch_delete_recreate_witness :
    recreateOkBehavior.preprocessResult = none ∧
    recreateOkBehavior.getOutcome = GetOutcome.found sampleLive ∧
    recreateOkBehavior.patchCompute = PatchOutcome.somePatch ∧
    recreateOkBehavior.patchApplyResult =
      some (ApiErr.invalid "spec.selector: field is immutable") ∧
    recreateOkBehavior.deleteResult = none ∧
    ((processObject sampleParams recreateOkBehavior sampleObj "galley").1 =
       [Op.getOp, Op.patchApplyOp, Op.deleteOp Propagation.background,
        Op.createOp { addMetadata sampleParams "galley" sampleObj with resourceVersion := "" }] ∧
     ∀ o, Op.createOp o ∈ (processObject sampleParams recreateOkBehavior sampleObj "galley").1 →
       o.resourceVersion = "") :=
  ⟨rfl, rfl, rfl, rfl, rfl,
   processObject_invalid_patch_delete_recreate sampleParams recreateOkBehavior
     sampleObj "galley" sampleLive "spec.selector: field is immutable"
     rfl rfl rfl rfl rfl⟩

/-- C7: in `ProcessManifests`, a document that fails to decode
contributes exactly one error to the aggregate and does not stop the
processing of the remaining documents: for a manifest whose documents
are any successfully processed objects surrounding one undecodable
document, the aggregate holds exactly that one decode error, and the
operations issued are exactly those of the other documents. -/
theorem processManifests_decode_failure_isolated
    (p : ProcParams) (b : KObj → ObjBehavior) (component manName m : String)
    (preObjs postObjs : List KObj)
    (hname : hasSuffixStr manName ".yaml" = true)
    (hok : ∀ o ∈ preObjs ++ postObjs, (processObject p (b o) o component).2 = none) :
    (ProcessManifests p b
        [⟨manName, preObjs.map ManifestDoc.object ++ ManifestDoc.yamlError m ::
            postObjs.map ManifestDoc.object⟩] component).2 = [PErr.decode m] ∧
    (ProcessManifests p b
        [⟨manName, preObjs.map ManifestDoc.object ++ ManifestDoc.yamlError m ::
            postObjs.map ManifestDoc.object⟩] component).1 =
      (preObjs ++ postObjs).flatMap (fun o => (processObject p (b o) o component).1) := by
  have hpre : ∀ o ∈ preObjs, (processObject p (b o) o component).2 = none :=
    fun o h => hok o (List.mem_append_left _ h)
  have hpost : ∀ o ∈ postObjs, (processObject p (b o) o component).2 = none :=
    fun o h => hok o (List.mem_append_right _ h)
  have hdocs :
      processDocs p b component
          (preObjs.map ManifestDoc.object ++ ManifestDoc.yamlError m ::
            postObjs.map ManifestDoc.object) =
        ((preObjs ++ postObjs).flatMap (fun o => (processObject p (b o) o component).1),
         [PErr.decode m]) := by
    rw [processDocs_append, processDocs_objects_ok p b component preObjs hpre]
    simp [processDocs, processDocs_objects_ok p b component postObjs hpost]
  simp [ProcessManifests, hname, hdocs]

/-- Witness for C7 at a concrete input: one of five documents fails
to decode; the other four are created and the aggregate holds exactly
one error. -/
theorem processManifests_decode_failure_isolated_witness :
    hasSuffixStr "istio-galley.yaml" ".yaml" = true ∧
    (∀ o ∈ [mkObj "cm1", mkObj "cm2"] ++ [mkObj "cm3", mkObj "cm4"],
       (processObject sampleParams ((fun _ => createOkBehavior) o) o "galley").2 = none) ∧
    ((ProcessManifests sampleParams (fun _ => createOkBehavior)
        [⟨"istio-galley.yaml",
          [mkObj "cm1", mkObj "cm2"].map ManifestDoc.object ++
            ManifestDoc.yamlError "bad yaml" ::
              [mkObj "cm3", mkObj "cm4"].map ManifestDoc.object⟩] "galley").2 =
        [PErr.decode "bad yaml"] ∧
     (ProcessManifests sampleParams (fun _ => createOkBehavior)
        [⟨"istio-galley.yaml",
          [mkObj "cm1", mkObj "cm2"].map ManifestDoc.object ++
            ManifestDoc.yamlError "bad yaml" ::
              [mkObj "cm3", mkObj "cm4"].map ManifestDoc.object⟩] "galley").1 =
       ([mkObj "cm1", mkObj "cm2"] ++ [mkObj "cm3", mkObj "cm4"]).flatMap
         (fun o => (processObject sampleParams createOkBehavior o "galley").1)) :=
  ⟨by decide, fun o _ => rfl,
   processManifests_decode_failure_isolated sampleParams (fun _ => createOkBehavior)
     "galley" "istio-galley.yaml" "bad yaml" [mkObj "cm1", mkObj "cm2"]
     [mkObj "cm3", mkObj "cm4"] (by decide) (fun o _ => rfl)⟩

/-- When the existing CRD's version is missing/unparseable or older,
`createCRD` issues an update call (whatever its outcome). -/
theorem createCRD_update_issued
    (b : CrdBehavior) (store : List CRD) (crd existingCrd : CRD) (v : SemVer)
    (hfound : store.find? (fun c => c.name == crd.name) = some existingCrd)
    (hver : getMaistraVersion crd = some v)
    (hcond : getMaistraVersion existingCrd = none ∨
      ∃ ev, getMaistraVersion existingCrd = some ev ∧ semverLt ev v = true)
    (hne : existingCrd ≠ crd) :
    ∃ c, CrdAction.updateAct c ∈ (createCRD b store crd).2.1 := by
  have hdo : (match getMaistraVersion existingCrd with
      | none => true
      | some existingVersion => semverLt existingVersion v) = true := by
    rcases hcond with h | ⟨ev, hev, hlt⟩
    · rw [h]
    · rw [hev]; exact hlt
  have hpatch : getPatchedCrd existingCrd crd = some crd := by
    simp [getPatchedCrd, hne]
  simp only [createCRD, hfound, hver, hdo, hpatch, if_true]
  rcases hupd : b.updateOutcome crd.name with _ | e
  · exact ⟨crd, by simp⟩
  · by_cases hto : e = ApiErr.typeObjectProblem
    · subst hto
      by_cases hstrip : b.stripFindsSchema crd.name = true
      · rcases hretry : b.retryUpdateOutcome crd.name with _ | e2 <;>
          · refine ⟨crd, ?_⟩
            simp [hstrip, hretry]
      · refine ⟨crd, ?_⟩
        simp only [Bool.not_eq_true] at hstrip
        simp [hstrip]
    · refine ⟨crd, ?_⟩
      have : (e == ApiErr.typeObjectProblem) = false := by
        simp [hto]
      simp [this]

/-- C4: with an existing CRD of the same name and an incoming CRD
whose `maistra-version` label parses, `createCRD` issues an update if
and only if the existing CRD's label is unparseable or strictly less
than the incoming version; when the incoming version is equal or
lower, the existing CRD is left untouched: no write is issued, the
store is unchanged, and the call succeeds. -/
theorem createCRD_version_gate
    (b : CrdBehavior) (store : List CRD) (crd existingCrd : CRD) (v : SemVer)
    (hfound : store.find? (fun c => c.name == crd.name) = some existingCrd)
    (hver : getMaistraVersion crd = some v) :
    ((∃ c, CrdAction.updateAct c ∈ (createCRD b store crd).2.1) ↔
      (getMaistraVersion existingCrd = none ∨
       ∃ ev, getMaistraVersion existingCrd = some ev ∧ semverLt ev v = true)) ∧
    (∀ ev, getMaistraVersion existingCrd = some ev → semverLt ev v = false →
      createCRD b store crd = (store, [CrdAction.getAct crd.name], none)) := by
  have hnoop : ∀ ev, getMaistraVersion existingCrd = some ev → semverLt ev v = false →
      createCRD b store crd = (store, [CrdAction.getAct crd.name], none) := by
    intro ev hev hlt
    simp [createCRD, hfound, hver, hev, hlt]
  refine ⟨⟨?_, ?_⟩, hnoop⟩
  · rintro ⟨c, hc⟩
    rcases hex : getMaistraVersion existingCrd with _ | ev
    · exact Or.inl rfl
    · refine Or.inr ⟨ev, rfl, ?_⟩
      by_contra hlt
      simp only [Bool.not_eq_true] at hlt
      rw [hnoop ev hex hlt] at hc
      simp at hc
  · intro hcond
    have hne : existingCrd ≠ crd := by
      intro h
      subst h
      rcases hcond with h | ⟨ev, hev, hlt⟩
      · rw [hver] at h; exact Option.noConfusion h
      · rw [hver] at hev
        injection hev with hev
        subst hev
        rw [semverLt_irrefl] at hlt
        exact Bool.noConfusion hlt
    exact createCRD_update_issued b store crd existingCrd v hfound hver hcond hne

/-- Witness for C4 at a concrete input: an existing CRD labelled
1.0.0 and an incoming CRD labelled 1.1.0 — the update is issued; and
the no-op half applied to an equal version shows no write. -/
theorem createCRD_version_gate_witness :
    [crdV "galleys.config.istio.io" "1.0.0"].find?
        (fun c => c.name == (crdV "galleys.config.istio.io" "1.1.0").name) =
      some (crdV "galleys.config.istio.io" "1.0.0") ∧
    getMaistraVersion (crdV "galleys.config.istio.io" "1.1.0") = some ⟨1, 1, 0⟩ ∧
    ((∃ c, CrdAction.updateAct c ∈
        (createCRD crdAllOk [crdV "galleys.config.istio.io" "1.0.0"]
          (crdV "galleys.config.istio.io" "1.1.0")).2.1) ↔
      (getMaistraVersion (crdV "galleys.config.istio.io" "1.0.0") = none ∨
       ∃ ev, getMaistraVersion (crdV "galleys.config.istio.io" "1.0.0") = some ev ∧
         semverLt ev ⟨1, 1, 0⟩ = true)) ∧
    (∀ ev, getMaistraVersion (crdV "galleys.config.istio.io" "1.0.0") = some ev →
      semverLt ev ⟨1, 1, 0⟩ = false →
      createCRD crdAllOk [crdV "galleys.config.istio.io" "1.0.0"]
          (crdV "galleys.config.istio.io" "1.1.0") =
        ([crdV "galleys.config.istio.io" "1.0.0"],
         [CrdAction.getAct (crdV "galleys.config.istio.io" "1.1.0").name], none)) := by
  refine ⟨by decide, by decide, ?_⟩
  exact createCRD_version_gate crdAllOk [crdV "galleys.config.istio.io" "1.0.0"]
    (crdV "galleys.config.istio.io" "1.1.0") (crdV "galleys.config.istio.io" "1.0.0")
    ⟨1, 1, 0⟩ (by decide) (by decide)

/-- Counterexample to C2 as stated: a directory of two CRD files
whose first file is malformed — the walk aborts, the second file is
never processed and its CRD is not installed. -/
theorem installCRDs_file_abort_counterexample :
    installCRDsWalk crdAllOk [] [badFile, goodFile] =
      ([], [], some [CrdErr.decode "bad yaml"]) ∧
    CrdAction.createAct goodCrd ∉ (installCRDsWalk crdAllOk [] [badFile, goodFile]).2.1 ∧
    goodCrd ∉ (installCRDsWalk crdAllOk [] [badFile, goodFile]).1 := by
  refine ⟨rfl, by decide, by decide⟩

/-- C2 (amended): within one CRD file, errors of individual documents
are aggregated and a malformed document does not prevent the remaining
documents of that file from being processed; but a file whose
processing returns an error stops the directory walk, so the
remaining files are not processed. -/
theorem installCRDs_error_aggregation :
    (∀ (b : CrdBehavior) (store : List CRD) (pre post : List CRDDoc) (m : String),
       processCRDFile b store (pre ++ CRDDoc.decodeFail m :: post) =
         ((processCRDFile b (processCRDFile b store pre).1 post).1,
          (processCRDFile b store pre).2.1 ++
            (processCRDFile b (processCRDFile b store pre).1 post).2.1,
          (processCRDFile b store pre).2.2 ++ CrdErr.decode m ::
            (processCRDFile b (processCRDFile b store pre).1 post).2.2)) ∧
    (∀ (b : CrdBehavior) (store : List CRD) (f : List CRDDoc)
       (fs : List (List CRDDoc)) (e : CrdErr) (es : List CrdErr),
       (processCRDFile b store f).2.2 = e :: es →
       installCRDsWalk b store (f :: fs) =
         ((processCRDFile b store f).1, (processCRDFile b store f).2.1,
          some (e :: es))) := by
  constructor
  · intro b store pre post m
    rw [processCRDFile_append]
    simp [processCRDFile]
  · intro b store f fs e es h
    simp [installCRDsWalk, h]

/-- Witness for C2 (amended) at a concrete input: the malformed first
file's aggregate stops the walk before the second file. -/
theorem installCRDs_error_aggregation_witness :
    (processCRDFile crdAllOk [] badFile).2.2 = CrdErr.decode "bad yaml" :: [] ∧
    installCRDsWalk crdAllOk [] [badFile, goodFile] =
      ((processCRDFile crdAllOk [] badFile).1,
       (processCRDFile crdAllOk [] badFile).2.1,
       some (CrdErr.decode "bad yaml" :: [])) :=
  ⟨rfl, installCRDs_error_aggregation.2 crdAllOk [] badFile [goodFile]
     (CrdErr.decode "bad yaml") [] rfl⟩
